import Mathlib

/-!
A shallow embedding of the vagg benchmark's record generator
(src/generation.rs) and chunked columnar batch builder (src/main.rs),
with theorems about batch shapes, determinism, derived fields and the
safety of the table lookups.

Machine integers: in the source, id and timestamp are u64 while severity
and the metadata value are i32. Every value the program produces is far
below 2^31 (ids are bounded by the row count, which the claims quantify
over as a mathematical natural; timestamps are below 1577836800 + 86400*730),
so Nat and Int model them exactly and no overflow is reachable.
-/

namespace Vagg

/-- The fixed message corpus MESSAGES from src/generation.rs lines 23-34. -/
def MESSAGES : List String := [
  "The research team discovered a new species of deep-sea creature while conducting experiments near hydrothermal vents in the dark ocean depths.",
  "The research facility analyzed samples from ancient artifacts, revealing breakthrough findings about civilizations lost to the depths of time.",
  "The research station monitored weather patterns across mountain peaks, collecting data about atmospheric changes in the remote depths below.",
  "The research observatory captured images of stellar phenomena, peering into the cosmic depths to understand the mysteries of distant galaxies.",
  "The research laboratory processed vast amounts of genetic data, exploring the molecular depths of DNA to unlock biological secrets.",
  "The research center studied rare organisms found in ocean depths, documenting new species thriving in extreme underwater environments.",
  "The research institute developed quantum systems to probe subatomic depths, advancing our understanding of fundamental particle physics.",
  "The research expedition explored underwater depths near volcanic vents, discovering unique ecosystems adapted to extreme conditions.",
  "The research facility conducted experiments in the depths of space, testing how different materials behave in zero gravity environments.",
  "The research team engineered crops that could grow in the depths of drought conditions, helping communities facing climate challenges."]

/-- The fixed country table COUNTRIES from src/generation.rs lines 36-47. -/
def COUNTRIES : List String := [
  "United States", "Canada", "United Kingdom", "France", "Germany",
  "Japan", "Australia", "Brazil", "India", "China"]

/-- The fixed label table LABELS from src/generation.rs lines 49-60. -/
def LABELS : List String := [
  "critical system alert", "routine maintenance", "security notification",
  "performance metric", "user activity", "system status", "network event",
  "application log", "database operation", "authentication event"]

/-- The BenchmarkLog struct from src/generation.rs lines 13-21.
Its fields are exactly id, message, country, severity, timestamp, metadata:
it carries no message_matches_research or message_matches_team field. -/
structure BenchmarkLog where
  id : Nat
  message : String
  country : String
  severity : Int
  timestamp : Nat
  metadata : String
deriving DecidableEq, Repr

/-- The field names declared by the BenchmarkLog struct, in order
(src/generation.rs lines 13-21). -/
def benchmarkLogFieldNames : List String :=
  ["id", "message", "country", "severity", "timestamp", "metadata"]

/-- base_timestamp from src/generation.rs line 65: the epoch second of
2020-01-01. -/
def base_timestamp : Nat := 1577836800

/-- serde_json serialization of the Metadata struct (src/generation.rs
lines 7-11, 84-87): a two-field object with an i32 value and a plain
ASCII label, serialized in declaration order. -/
def metadataJson (value : Int) (label : String) : String :=
  "\x7b\"value\":" ++ toString value ++ ",\"label\":\"" ++ label ++ "\"\x7d"

/-- The body of the generation loop for index i (src/generation.rs lines
67-88): each field of the yielded record as a function of i and the fixed
tables. Rust's panicking index MESSAGES[i % MESSAGES.len()] is modelled
totally with getD here; genLogChecked below keeps the fallibility. -/
def genLog (i : Nat) : BenchmarkLog :=
  { id := i
    message := MESSAGES.getD (i % MESSAGES.length) ""
    country := COUNTRIES.getD (i % COUNTRIES.length) ""
    severity := ((i % 5 : Nat) : Int) + 1
    timestamp := base_timestamp + 86400 * (i % 731)
    metadata := metadataJson (((i % 1000 : Nat) : Int) + 1)
      (LABELS.getD (i % LABELS.length) "") }

/-- generate_logs (src/generation.rs lines 62-91): the stream that yields
one BenchmarkLog per index 0, 1, ..., num_rows - 1, embedded as the list
of its yielded items. -/
def generate_logs (num_rows : Nat) : List BenchmarkLog :=
  (List.range num_rows).map genLog

/-- The fallible version of the loop body: the three table lookups are the
panicking Rust index operator, modelled as getElem?, so the result is none
exactly when some lookup is out of range. The serde_json serialization of
the two-field Metadata struct cannot fail and is kept total. -/
def genLogChecked (i : Nat) : Option BenchmarkLog :=
  match MESSAGES[i % MESSAGES.length]?, COUNTRIES[i % COUNTRIES.length]?,
      LABELS[i % LABELS.length]? with
  | some message, some country, some label =>
    some { id := i
           message := message
           country := country
           severity := ((i % 5 : Nat) : Int) + 1
           timestamp := base_timestamp + 86400 * (i % 731)
           metadata := metadataJson (((i % 1000 : Nat) : Int) + 1) label }
  | _, _, _ => none

/-- Boolean test that the needle (first argument) is a prefix of the
haystack (second argument), on character lists. -/
def strPrefixB : List Char → List Char → Bool
  | [], _ => true
  | _ :: _, [] => false
  | a :: as, b :: bs => a == b && strPrefixB as bs

/-- Boolean substring containment: does the haystack (second argument)
contain the needle (first argument) as a contiguous substring. -/
def strContainsB (needle : List Char) : List Char → Bool
  | [] => needle.isEmpty
  | a :: rest => strPrefixB needle (a :: rest) || strContainsB needle rest

/-- Modelled from the spec: the substring-containment derivation of the
message_matches_(token) fields against a record's message (spec sections 3
and 9). The code has no mapping step computing these: main.rs lines 110-111
read fields row.message_matches_research and row.message_matches_team that
the BenchmarkLog struct does not declare. -/
def message_matches (token msg : String) : Bool :=
  strContainsB token.toList msg.toList

/-- CHUNK_SIZE from src/main.rs line 27. -/
def CHUNK_SIZE : Nat := 100000

/-- The buffering loop of the futures chunks combinator used at
src/main.rs line 100: items are pushed onto a buffer; when the buffer
reaches the capacity C it is emitted and a fresh buffer started; at end of
stream a non-empty partial buffer is emitted (an empty one is not). -/
def chunksGo (C : Nat) : List α → List α → List (List α)
  | buf, [] => if buf.isEmpty then [] else [buf]
  | buf, a :: rest =>
    if C ≤ (buf ++ [a]).length then (buf ++ [a]) :: chunksGo C [] rest
    else chunksGo C (buf ++ [a]) rest

/-- StreamExt::chunks C, embedded on the list of stream items: the list of
emitted buffers, starting from an empty buffer. -/
def chunks (C : Nat) (l : List α) : List (List α) := chunksGo C [] l

/-- One finalized batch (the StructArray built at src/main.rs lines
102-124): one column per schema field, each column the per-row values of
that field appended in row order, plus the recorded chunk_len. The two
boolean columns follow the spec's substring-containment derivation (see
message_matches): the source reads them from fields BenchmarkLog does not
have. -/
structure StructBatch where
  ids : List Nat
  messages : List String
  matches_research : List Bool
  matches_team : List Bool
  countries : List String
  severities : List Int
  timestamps : List Nat
  metadatas : List String
  len : Nat
deriving DecidableEq, Repr

/-- Build the batch for one chunk: the per-field builder appends of
src/main.rs lines 107-116, finalized with chunk_len = chunk.len(). -/
def mkBatch (chunk : List BenchmarkLog) : StructBatch :=
  { ids := chunk.map (fun r => r.id)
    messages := chunk.map (fun r => r.message)
    matches_research := chunk.map (fun r => message_matches "research" r.message)
    matches_team := chunk.map (fun r => message_matches "team" r.message)
    countries := chunk.map (fun r => r.country)
    severities := chunk.map (fun r => r.severity)
    timestamps := chunk.map (fun r => r.timestamp)
    metadatas := chunk.map (fun r => r.metadata)
    len := chunk.length }

/-- row_array_stream with the chunk size as a parameter: chunk the
generated records and finalize one batch per chunk (src/main.rs lines
99-126). -/
def row_array_stream_with (num_rows C : Nat) : List StructBatch :=
  (chunks C (generate_logs num_rows)).map mkBatch

/-- row_array_stream (src/main.rs lines 66-129) at the program's fixed
CHUNK_SIZE. -/
def row_array_stream (num_rows : Nat) : List StructBatch :=
  row_array_stream_with num_rows CHUNK_SIZE

/-- The ordered field names of the batch schema (src/main.rs lines 78-92). -/
def schemaFieldNames : List String :=
  ["id", "message", "message_matches_research", "message_matches_team",
   "country", "severity", "timestamp", "metadata"]

/-- The shapes of the eight field DTypes (src/main.rs lines 68-77). -/
inductive VDType
  | u64
  | utf8
  | boolean
  | i32
deriving DecidableEq, Repr

/-- field_dtypes from src/main.rs lines 68-77, in declaration order. -/
def field_dtypes : List VDType :=
  [.u64, .utf8, .boolean, .boolean, .utf8, .i32, .u64, .utf8]

/-- The pipeline entry with its configuration check: the futures chunks
combinator asserts that its capacity is non-zero when the adapter is
constructed, before any record of the inner generate_logs stream is
produced; a zero chunk size therefore aborts with no batch ever built,
modelled as a synchronous error. -/
def row_array_stream_checked (num_rows C : Nat) : Except String (List StructBatch) :=
  if C = 0 then Except.error "chunk capacity must be greater than zero"
  else Except.ok (row_array_stream_with num_rows C)

/-! ## Properties of the chunking combinator -/

theorem chunksGo_ne_nil (C : Nat) (l buf : List α) (h : buf ≠ [] ∨ l ≠ []) :
    chunksGo C buf l ≠ [] := by
  induction l generalizing buf with
  | nil =>
    rcases h with hb | hl
    · match buf, hb with
      | b :: bs, _ => simp [chunksGo]
    · exact absurd rfl hl
  | cons a rest ih =>
    rw [chunksGo]
    split
    · simp
    · exact ih (buf ++ [a]) (Or.inl (by simp))

theorem chunksGo_flatten (C : Nat) (l buf : List α) :
    (chunksGo C buf l).flatten = buf ++ l := by
  induction l generalizing buf with
  | nil =>
    match buf with
    | [] => simp [chunksGo]
    | b :: bs => simp [chunksGo]
  | cons a rest ih =>
    rw [chunksGo]
    split
    · simp [ih]
    · simp [ih]

theorem chunksGo_length (C : Nat) (hC : 0 < C) (l : List α) :
    ∀ buf : List α, buf.length < C →
      (chunksGo C buf l).length = (buf.length + l.length + C - 1) / C := by
  induction l with
  | nil =>
    intro buf hbuf
    match buf with
    | [] =>
      simp [chunksGo]
      rw [Nat.div_eq_of_lt (by omega)]
    | b :: bs =>
      simp [chunksGo]
      rw [Eq.comm]
      apply Nat.div_eq_of_lt_le
      all_goals simp at hbuf ⊢
      all_goals omega
  | cons a rest ih =>
    intro buf hbuf
    rw [chunksGo]
    split
    · rename_i hfull
      simp only [List.length_cons, List.length_append, List.length_singleton] at hfull ⊢
      have hfull2 : C ≤ buf.length + 1 := hfull
      have h1 : buf.length + (rest.length + 1) + C - 1 = (0 + rest.length + C - 1) + C := by
        omega
      rw [ih [] hC]
      simp only [List.length_nil]
      rw [h1, Nat.add_div_right _ hC]
    · rename_i hnot
      simp only [List.length_append, List.length_singleton] at hnot
      rw [ih (buf ++ [a]) (by simp; omega)]
      have h2 : (buf ++ [a]).length + rest.length + C - 1
          = buf.length + (a :: rest).length + C - 1 := by
        simp
        omega
      rw [h2]

theorem chunksGo_dropLast (C : Nat) (hC : 0 < C) (l : List α) :
    ∀ buf : List α, buf.length < C →
      ∀ b ∈ (chunksGo C buf l).dropLast, b.length = C := by
  induction l with
  | nil =>
    intro buf hbuf b hb
    match buf with
    | [] => simp [chunksGo] at hb
    | x :: xs => simp [chunksGo] at hb
  | cons a rest ih =>
    intro buf hbuf b hb
    rw [chunksGo] at hb
    split at hb
    · rename_i hfull
      by_cases hrec : chunksGo C [] rest = []
      · rw [hrec] at hb
        simp at hb
      · rw [List.dropLast_cons_of_ne_nil hrec] at hb
        rcases List.mem_cons.mp hb with hb1 | hb1
        · subst hb1
          simp only [List.length_append, List.length_singleton] at hfull ⊢
          omega
        · exact ih [] hC b hb1
    · rename_i hnot
      exact ih (buf ++ [a])
        (by simp only [List.length_append, List.length_singleton] at hnot ⊢; omega) b hb

theorem chunksGo_getLast (C : Nat) (hC : 0 < C) (l : List α) :
    ∀ buf : List α, buf.length < C → ∀ b : List α,
      (chunksGo C buf l).getLast? = some b →
      b.length = if (buf.length + l.length) % C = 0 then C
        else (buf.length + l.length) % C := by
  induction l with
  | nil =>
    intro buf hbuf b hb
    match buf with
    | [] => simp [chunksGo] at hb
    | x :: xs =>
      simp [chunksGo] at hb
      subst hb
      simp at hbuf
      simp [Nat.mod_eq_of_lt (show xs.length + 1 < C by omega)]
  | cons a rest ih =>
    intro buf hbuf b hb
    rw [chunksGo] at hb
    split at hb
    · rename_i hfull
      simp only [List.length_append, List.length_singleton] at hfull
      by_cases hrec : chunksGo C [] rest = []
      · have hrest : rest = [] := by
          by_contra hne
          exact chunksGo_ne_nil C rest [] (Or.inr hne) hrec
        subst hrest
        rw [hrec] at hb
        simp at hb
        subst hb
        simp only [List.length_append, List.length_singleton, List.length_cons,
          List.length_nil]
        rw [show buf.length + (0 + 1) = C by omega, Nat.mod_self, if_pos rfl]
      · have hswap : ((buf ++ [a]) :: chunksGo C [] rest).getLast?
            = (chunksGo C [] rest).getLast? := by
          match hrec2 : chunksGo C [] rest, hrec with
          | r :: rs, _ => rw [List.getLast?_cons_cons]
        rw [hswap] at hb
        have hih := ih [] hC b hb
        have htot : buf.length + (a :: rest).length = rest.length + C := by
          simp only [List.length_cons]
          omega
        rw [htot, Nat.add_mod_right]
        simpa using hih
    · rename_i hnot
      have hih := ih (buf ++ [a])
        (by simp only [List.length_append, List.length_singleton] at hnot ⊢; omega) b hb
      have htot : (buf ++ [a]).length + rest.length = buf.length + (a :: rest).length := by
        rw [List.length_append, List.length_singleton, List.length_cons]
        omega
      rw [htot] at hih
      exact hih

theorem chunks_flatten (C : Nat) (l : List α) : (chunks C l).flatten = l := by
  simpa using chunksGo_flatten C l []

theorem chunks_length (C : Nat) (hC : 0 < C) (l : List α) :
    (chunks C l).length = (l.length + C - 1) / C := by
  have h := chunksGo_length C hC l [] (by simpa using hC)
  simpa using h

theorem chunks_dropLast (C : Nat) (hC : 0 < C) (l : List α) :
    ∀ b ∈ (chunks C l).dropLast, b.length = C :=
  chunksGo_dropLast C hC l [] (by simpa using hC)

theorem chunks_getLast (C : Nat) (hC : 0 < C) (l : List α) (b : List α)
    (hb : (chunks C l).getLast? = some b) :
    b.length = if l.length % C = 0 then C else l.length % C := by
  have h := chunksGo_getLast C hC l [] (by simpa using hC) b hb
  simpa using h

theorem chunks_length_sum (C : Nat) (l : List α) :
    ((chunks C l).map List.length).sum = l.length := by
  rw [← List.length_flatten, chunks_flatten]

/-! ## Properties of the generator -/

theorem generate_logs_length (n : Nat) : (generate_logs n).length = n := by
  simp [generate_logs]

theorem generate_logs_ids (n : Nat) :
    (generate_logs n).map (fun r => r.id) = List.range n := by
  have h : ((fun r : BenchmarkLog => r.id) ∘ genLog) = fun i : Nat => i := rfl
  rw [generate_logs, List.map_map, h, List.map_id']

/-! ## Claim theorems -/

/-- C1: for every row count n and chunk size C ≥ 1, the batch stream has
exactly ceil(n / C) batches, their row counts sum to n, every batch except
possibly the last has exactly C rows, the last batch has n mod C rows (or
C when C divides n), and n = 0 yields zero batches. -/
theorem c1_batch_shape (n C : Nat) (hC : 1 ≤ C) :
    (row_array_stream_with n C).length = (n + C - 1) / C ∧
    ((row_array_stream_with n C).map (fun b => b.len)).sum = n ∧
    (∀ b ∈ (row_array_stream_with n C).dropLast, b.len = C) ∧
    (∀ b : StructBatch, (row_array_stream_with n C).getLast? = some b →
      b.len = if n % C = 0 then C else n % C) ∧
    (n = 0 → row_array_stream_with n C = []) := by
  have hC0 : 0 < C := hC
  have hlen : (generate_logs n).length = n := generate_logs_length n
  refine ⟨?_, ?_, ?_, ?_, ?_⟩
  · rw [row_array_stream_with, List.length_map, chunks_length C hC0, hlen]
  · rw [row_array_stream_with, List.map_map]
    have h : ((fun b : StructBatch => b.len) ∘ mkBatch)
        = (List.length : List BenchmarkLog → Nat) := rfl
    rw [h, chunks_length_sum, hlen]
  · intro b hb
    rw [row_array_stream_with, ← List.map_dropLast] at hb
    obtain ⟨c, hc, rfl⟩ := List.mem_map.mp hb
    exact chunks_dropLast C hC0 (generate_logs n) c hc
  · intro b hb
    rw [row_array_stream_with, List.getLast?_map] at hb
    obtain ⟨c, hc, hcb⟩ := Option.map_eq_some'.mp hb
    have h := chunks_getLast C hC0 (generate_logs n) c hc
    rw [hlen] at h
    rw [← hcb]
    exact h
  · intro h0
    subst h0
    rfl

/-- Witness for C1 at n = 5, C = 2: three batches of lengths 2, 2, 1. -/
theorem c1_batch_shape_witness :
    1 ≤ 2 ∧
    ((row_array_stream_with 5 2).length = (5 + 2 - 1) / 2 ∧
    ((row_array_stream_with 5 2).map (fun b => b.len)).sum = 5 ∧
    (∀ b ∈ (row_array_stream_with 5 2).dropLast, b.len = 2) ∧
    (∀ b : StructBatch, (row_array_stream_with 5 2).getLast? = some b →
      b.len = if 5 % 2 = 0 then 2 else 5 % 2) ∧
    (5 = 0 → row_array_stream_with 5 2 = [])) :=
  ⟨by decide, c1_batch_shape 5 2 (by decide)⟩

/-- C2: the batch schema of row_array_stream declares the two boolean
columns message_matches_research and message_matches_team, but the
BenchmarkLog record type declares no fields of those names, and the code
has no mapping step computing them: the appends at main.rs lines 110-111
read fields that do not exist on the record. -/
theorem c2_missing_match_fields :
    "message_matches_research" ∈ schemaFieldNames ∧
    "message_matches_team" ∈ schemaFieldNames ∧
    "message_matches_research" ∉ benchmarkLogFieldNames ∧
    "message_matches_team" ∉ benchmarkLogFieldNames := by
  decide

/-- C3: generate_logs n yields exactly n records whose ids are
0, 1, ..., n-1 in order. -/
theorem c3_ids_in_order (n : Nat) :
    (generate_logs n).length = n ∧
    (generate_logs n).map (fun r => r.id) = List.range n :=
  ⟨generate_logs_length n, generate_logs_ids n⟩

/-- C4: every generated record has severity equal to (id mod 5) + 1, which
lies in the set of values 1 to 5. -/
theorem c4_severity (n : Nat) (r : BenchmarkLog) (hr : r ∈ generate_logs n) :
    r.severity = ((r.id % 5 : Nat) : Int) + 1 ∧
    r.severity ∈ ([1, 2, 3, 4, 5] : List Int) := by
  obtain ⟨i, hi, rfl⟩ := List.mem_map.mp hr
  refine ⟨rfl, ?_⟩
  have h5 : i % 5 < 5 := Nat.mod_lt _ (by omega)
  simp only [genLog, List.mem_cons, List.not_mem_nil, or_false]
  omega

/-- Witness for C4 at the record of id 6 in a run of 7 rows. -/
theorem c4_severity_witness :
    genLog 6 ∈ generate_logs 7 ∧
    ((genLog 6).severity = (((genLog 6).id % 5 : Nat) : Int) + 1 ∧
     (genLog 6).severity ∈ ([1, 2, 3, 4, 5] : List Int)) := by
  have h : genLog 6 ∈ generate_logs 7 := List.mem_map_of_mem genLog (by decide)
  exact ⟨h, c4_severity 7 (genLog 6) h⟩

/-- C5: every generated record has timestamp equal to the base epoch
1577836800 plus 86400 * (id mod 731) seconds, which lies within
[base, base + 86400 * 730]. -/
theorem c5_timestamp (n : Nat) (r : BenchmarkLog) (hr : r ∈ generate_logs n) :
    r.timestamp = base_timestamp + 86400 * (r.id % 731) ∧
    base_timestamp ≤ r.timestamp ∧
    r.timestamp ≤ base_timestamp + 86400 * 730 := by
  obtain ⟨i, hi, rfl⟩ := List.mem_map.mp hr
  have h731 : i % 731 < 731 := Nat.mod_lt _ (by omega)
  refine ⟨rfl, ?_, ?_⟩ <;> simp only [genLog] <;> omega

/-- Witness for C5 at the record of id 2 in a run of 4 rows. -/
theorem c5_timestamp_witness :
    genLog 2 ∈ generate_logs 4 ∧
    ((genLog 2).timestamp = base_timestamp + 86400 * ((genLog 2).id % 731) ∧
     base_timestamp ≤ (genLog 2).timestamp ∧
     (genLog 2).timestamp ≤ base_timestamp + 86400 * 730) := by
  have h : genLog 2 ∈ generate_logs 4 := List.mem_map_of_mem genLog (by decide)
  exact ⟨h, c5_timestamp 4 (genLog 2) h⟩

/-- C6: generation is deterministic and replayable: the record at position
i is the pure function genLog of i alone, so any two runs (of the same or
different row counts) agree at every common position. -/
theorem c6_determinism (n m i : Nat) (hn : i < n) (hm : i < m) :
    (generate_logs n)[i]? = some (genLog i) ∧
    (generate_logs n)[i]? = (generate_logs m)[i]? := by
  have h1 : (generate_logs n)[i]? = some (genLog i) := by
    simp [generate_logs, List.getElem?_map, List.getElem?_range hn]
  have h2 : (generate_logs m)[i]? = some (genLog i) := by
    simp [generate_logs, List.getElem?_map, List.getElem?_range hm]
  exact ⟨h1, h1.trans h2.symm⟩

/-- Witness for C6 at position 1 of runs with 3 and 5 rows. -/
theorem c6_determinism_witness :
    1 < 3 ∧ 1 < 5 ∧
    ((generate_logs 3)[1]? = some (genLog 1) ∧
     (generate_logs 3)[1]? = (generate_logs 5)[1]?) :=
  ⟨by decide, by decide, c6_determinism 3 5 1 (by decide) (by decide)⟩

/-- C7: batches are yielded in chunk order with row order matching
generation order: the concatenation of the id columns of all batches of
row_array_stream n, in yield order, is exactly 0, 1, ..., n-1. -/
theorem c7_ids_strictly_increasing (n : Nat) :
    ((row_array_stream n).map (fun b => b.ids)).flatten = List.range n := by
  rw [row_array_stream, row_array_stream_with, List.map_map]
  have h : ((fun b : StructBatch => b.ids) ∘ mkBatch)
      = List.map (fun r : BenchmarkLog => r.id) := rfl
  rw [h, ← List.map_flatten, chunks_flatten, generate_logs_ids]

/-- C8: the chunk size of the pipeline is the constant 100000, which is
non-zero, the fixed schema is well formed (eight names, eight dtypes), and
a zero chunk size is rejected with an error before any batch is built. -/
theorem c8_config_check :
    CHUNK_SIZE = 100000 ∧ 0 < CHUNK_SIZE ∧
    schemaFieldNames.length = field_dtypes.length ∧
    (∀ n : Nat, row_array_stream_checked n 0
      = Except.error "chunk capacity must be greater than zero") ∧
    (∀ n : Nat, row_array_stream_checked n CHUNK_SIZE
      = Except.ok (row_array_stream n)) :=
  ⟨rfl, by decide, by decide, fun n => rfl, fun n => rfl⟩

/-- C9: the generator has no reachable error condition: for every index,
the modulo-bounded lookups into MESSAGES, COUNTRIES and LABELS are in
range, so the fallible version of the loop body succeeds and returns
exactly the record genLog produces. -/
theorem c9_no_reachable_errors (i : Nat) :
    genLogChecked i = some (genLog i) := by
  have hm : i % MESSAGES.length < MESSAGES.length := Nat.mod_lt _ (by decide)
  have hc : i % COUNTRIES.length < COUNTRIES.length := Nat.mod_lt _ (by decide)
  have hl : i % LABELS.length < LABELS.length := Nat.mod_lt _ (by decide)
  simp only [genLogChecked, List.getElem?_eq_getElem hm, List.getElem?_eq_getElem hc,
    List.getElem?_eq_getElem hl, genLog, List.getD_eq_getElem MESSAGES "" hm,
    List.getD_eq_getElem COUNTRIES "" hc, List.getD_eq_getElem LABELS "" hl]

/-- C10: every message of the corpus contains the substring research, and
exactly the messages at corpus indices 0 and 9 contain the substring team;
hence under the substring-containment derivation every record matches
research, and a record matches team exactly when its id mod 10 is 0 or 9. -/
theorem c10_token_containment (n : Nat) (r : BenchmarkLog) (hr : r ∈ generate_logs n) :
    (∀ m ∈ MESSAGES, message_matches "research" m = true) ∧
    MESSAGES.map (fun m => message_matches "team" m)
      = [true, false, false, false, false, false, false, false, false, true] ∧
    message_matches "research" r.message = true ∧
    (message_matches "team" r.message = true ↔ (r.id % 10 = 0 ∨ r.id % 10 = 9)) := by
  obtain ⟨i, hi, rfl⟩ := List.mem_map.mp hr
  have hmsg : (genLog i).message = MESSAGES.getD (i % 10) "" := rfl
  have hid : (genLog i).id = i := rfl
  obtain ⟨k, hk, hik⟩ : ∃ k, k < 10 ∧ i % 10 = k :=
    ⟨i % 10, Nat.mod_lt _ (by omega), rfl⟩
  refine ⟨by decide, by decide, ?_, ?_⟩
  · rw [hmsg, hik]
    interval_cases k <;> decide
  · rw [hmsg, hid, hik]
    interval_cases k <;> decide

/-- Witness for C10 at the record of id 9 in a run of 10 rows, whose
message contains both tokens. -/
theorem c10_token_containment_witness :
    genLog 9 ∈ generate_logs 10 ∧
    ((∀ m ∈ MESSAGES, message_matches "research" m = true) ∧
     MESSAGES.map (fun m => message_matches "team" m)
       = [true, false, false, false, false, false, false, false, false, true] ∧
     message_matches "research" (genLog 9).message = true ∧
     (message_matches "team" (genLog 9).message = true ↔
       ((genLog 9).id % 10 = 0 ∨ (genLog 9).id % 10 = 9))) := by
  have h : genLog 9 ∈ generate_logs 10 := List.mem_map_of_mem genLog (by decide)
  exact ⟨h, c10_token_containment 10 (genLog 9) h⟩

end Vagg
